import Mathlib

/-
Shallow embedding of the order-placement core of the CST3144 backend
(`src/server.js`). The repository ships two variants of the Express server
in one file; both expose `POST /orders`:

* variant 1 (lines 1-269): validates name, phone and the lessons array,
  runs the conditional-decrement reserve loop, mints an order number from
  the `counters` collection (`findOneAndUpdate` with `$inc`), and persists
  the order with `orderNumber`, `status: 'pending'` and `createdAt`;
* variant 2 (lines 270-502): additionally validates each line item
  (`ObjectId.isValid`, positive integer quantity) and the notes length,
  but generates no order number and persists a plainer record.

Modelling conventions: MongoDB ObjectIds are hex strings with a validity
predicate; JS numbers that the code treats as integers are `Int` (so the
`Number.isInteger` guard of variant 2 is vacuously true in the model);
absent JS values are `Option.none`; `new Date()` inputs (`year`, `now`)
are parameters. The single-document atomic updates (`updateOne` with a
filter, `findOneAndUpdate`) become pure functions on an explicit `DB`
state, and one `placeOrder` call is one function application.
-/

/-- A document of the `lessons` collection. `_id` is modelled as the hex
string of the ObjectId. -/
structure Lesson where
  id : String
  topic : String
  location : String
  price : Int
  space : Int
  icon : String
  totalSpace : Int
deriving Repr, DecidableEq

/-- One entry of the `lessons` array of a raw `POST /orders` body:
`{id, qty}`. -/
structure RawLineItem where
  id : String
  qty : Int
deriving Repr, DecidableEq

/-- A raw `POST /orders` body. A missing `lessons` field (or one that is
not an array) is `none`; a missing `notes` field is `none`. A missing
`name`/`phone` is modelled as `""` (both are falsy in JS and also fail
the regexes). -/
structure RawOrder where
  name : String
  phone : String
  lessons : Option (List RawLineItem)
  notes : Option String
deriving Repr, DecidableEq

/-- A document of the `orders` collection. Variant 1 stores
`orderNumber` and `status := some "pending"`; variant 2 stores neither
(both `none`). -/
structure OrderRec where
  orderNumber : Option String
  name : String
  phone : String
  items : List RawLineItem
  notes : String
  status : Option String
  createdAt : Nat
deriving Repr, DecidableEq

/-- The mutable database state: the `lessons` collection, the `orders`
collection, and the `seq` field of the single `counters` document with
`_id = "orderNumber"` (`none` when that document does not exist). -/
structure DB where
  lessons : List Lesson
  orders : List OrderRec
  counter : Option Int
deriving Repr, DecidableEq

/-- Outcome of one `POST /orders` call. The first six constructors are the
HTTP 400 validation errors, `noSpace` is the 400 capacity error naming the
lesson id from the error message, `internalError` is the catch-all 500
(reached in variant 1 when `new ObjectId` throws on a malformed id), and
`success` carries the response body (`insertedId`, and the `orderNumber`
that only variant 1 returns). -/
inductive OrderResult where
  | invalidName
  | invalidPhone
  | invalidLessons
  | invalidLessonId
  | invalidQty
  | notesTooLong
  | noSpace (lessonId : String)
  | internalError
  | success (insertedId : Nat) (orderNumber : Option String)
deriving Repr, DecidableEq

/-- A character allowed by the name regex `^[A-Za-z\s]{2,50}$`: an ASCII
letter or whitespace (the model restricts `\s` to the common four). -/
def isNameChar (c : Char) : Bool :=
  c.isAlpha || c = ' ' || c = '\t' || c = '\n' || c = '\r'

/-- `^[A-Za-z\s]{2,50}$` (both variants; character list of the string). -/
def nameOk (s : String) : Bool :=
  2 ≤ s.length && s.length ≤ 50 && s.data.all isNameChar

/-- `^0\d{10}$` (both variants). -/
def phoneOk (s : String) : Bool :=
  s.length = 11 && s.data.all Char.isDigit && s.data.headD ' ' = '0'

/-- A hex digit, as accepted in an ObjectId hex string. -/
def isHexChar (c : Char) : Bool :=
  c.isDigit || ('a' ≤ c && c ≤ 'f') || ('A' ≤ c && c ≤ 'F')

/-- `ObjectId.isValid` on a string: 24 hex characters. -/
def isValidObjectId (s : String) : Bool :=
  s.length = 24 && s.data.all isHexChar

/-- JS `String.prototype.endsWith`: `t` is a suffix of `s` (stated on the
character lists). -/
def strEndsWith (s t : String) : Bool :=
  s.data.reverse.take t.data.length == t.data.reverse

/-- JS `String.prototype.padStart n c`: left-pad to length `n` with `c`;
a string already at least `n` long is returned unchanged. -/
def padStart (s : String) (n : Nat) (c : Char) : String :=
  String.mk (List.replicate (n - s.length) c) ++ s

/-- The atomic conditional decrement of the reserve loop:
`updateOne({_id: id, space: {$gte: qty}}, {$inc: {space: -qty}})`.
Updates the first document matching the whole filter; returns the new
collection and whether `matchedCount` was nonzero. -/
def tryReserve (lessons : List Lesson) (lid : String) (qty : Int) :
    List Lesson × Bool :=
  match lessons with
  | [] => ([], false)
  | l :: rest =>
    if l.id = lid ∧ qty ≤ l.space then
      ({ l with space := l.space - qty } :: rest, true)
    else
      let r := tryReserve rest lid qty
      (l :: r.1, r.2)

/-- Outcome of the sequential reserve loop over the order's line items,
carrying the lessons collection as left behind by the loop. `noSpace`
is the early `return` on `matchedCount === 0`; `badId` is the exception
`new ObjectId(l.id)` throws on a malformed id (caught by the handler's
`catch`, observable only in variant 1 where ids are not pre-validated). -/
inductive ReserveOutcome where
  | ok (lessons : List Lesson)
  | noSpace (lessons : List Lesson) (lessonId : String)
  | badId (lessons : List Lesson) (lessonId : String)
deriving Repr, DecidableEq

/-- The `for (const l of lessons)` reserve loop shared by both variants:
line items are reserved sequentially in input order, and the loop stops at
the first failure without reverting earlier decrements. -/
def reserveLoop (lessons : List Lesson) : List RawLineItem → ReserveOutcome
  | [] => .ok lessons
  | item :: rest =>
    if isValidObjectId item.id then
      let r := tryReserve lessons item.id item.qty
      if r.2 then reserveLoop r.1 rest
      else .noSpace r.1 item.id
    else .badId lessons item.id

/-- `findOneAndUpdate({_id: 'orderNumber'}, {$inc: {seq: 1}},
{returnDocument: 'after', upsert: true})`: returns the new counter
document state and the `seq` read back from it (an upsert on a missing
document creates it with `seq = 1`). -/
def nextSeq (c : Option Int) : Option Int × Int :=
  match c with
  | some v => (some (v + 1), v + 1)
  | none => (some 1, 1)

/-- `updateOne({_id: 'orderNumber'}, {$setOnInsert: {seq: 0}},
{upsert: true})` run by `connectDB` of variant 1: creates the counter at 0
when it is missing, and leaves an existing value untouched. -/
def initCounter (c : Option Int) : Option Int :=
  match c with
  | some v => some v
  | none => some 0

/-- The counter-initialisation part of variant 1's `connectDB`. -/
def connectDB (db : DB) : DB :=
  { db with counter := initCounter db.counter }

/-- The numeric value the next `$inc` starts from: `seq` of the counter
document, `0` when the document is missing. -/
def counterVal (c : Option Int) : Int :=
  c.getD 0

/-- Variant 1's order-number line:
``ORD-${new Date().getFullYear()}-${String(counter.value.seq).padStart(4, '0')}``. -/
def formatOrderNumber (year : Nat) (seq : Int) : String :=
  "ORD-" ++ toString year ++ "-" ++ padStart (toString seq) 4 '0'

/-- `POST /orders` of variant 1 (`src/server.js` lines 98-143): validates
name, phone and the lessons array only, reserves sequentially, then mints
an order number and persists
`{orderNumber, name, phone, lessons, notes: notes || '', status: 'pending',
createdAt}`. -/
def placeOrder_v1 (db : DB) (o : RawOrder) (year : Nat) (now : Nat) :
    DB × OrderResult :=
  if ¬ nameOk o.name then (db, .invalidName)
  else if ¬ phoneOk o.phone then (db, .invalidPhone)
  else
    match o.lessons with
    | none => (db, .invalidLessons)
    | some items =>
      if items.isEmpty then (db, .invalidLessons)
      else
        match reserveLoop db.lessons items with
        | .badId ls _ => ({ db with lessons := ls }, .internalError)
        | .noSpace ls lid => ({ db with lessons := ls }, .noSpace lid)
        | .ok ls =>
          let c := nextSeq db.counter
          let num := formatOrderNumber year c.2
          let order : OrderRec :=
            { orderNumber := some num,
              name := o.name,
              phone := o.phone,
              items := items,
              notes := o.notes.getD "",
              status := some "pending",
              createdAt := now }
          ({ db with
              lessons := ls,
              counter := c.1,
              orders := db.orders ++ [order] },
           .success db.orders.length (some num))

/-- Variant 2's per-entry check of the lessons array:
`!lesson.id || !ObjectId.isValid(lesson.id)` then
`!Number.isInteger(lesson.qty) || lesson.qty <= 0` (the integrality guard
is vacuous over `Int`). Returns the first error, if any. -/
def lineItemsCheck : List RawLineItem → Option OrderResult
  | [] => none
  | item :: rest =>
    if item.id = "" ∨ ¬ isValidObjectId item.id then some .invalidLessonId
    else if item.qty ≤ 0 then some .invalidQty
    else lineItemsCheck rest

/-- Variant 2's notes check `notes && notes.length > 250` (`none` and the
falsy empty string skip the check; neither can exceed 250 anyway). -/
def notesTooLongCheck (notes : Option String) : Bool :=
  match notes with
  | none => false
  | some s => s ≠ "" && 250 < s.length

/-- `POST /orders` of variant 2 (`src/server.js` lines 375-430): validates
name, phone, the lessons array, each line item, and the notes length, then
reserves sequentially and persists
`{name, phone, lessons, notes: notes || '', createdAt}` — with no order
number and no status. -/
def placeOrder_v2 (db : DB) (o : RawOrder) (now : Nat) : DB × OrderResult :=
  if ¬ nameOk o.name then (db, .invalidName)
  else if ¬ phoneOk o.phone then (db, .invalidPhone)
  else
    match o.lessons with
    | none => (db, .invalidLessons)
    | some items =>
      if items.isEmpty then (db, .invalidLessons)
      else
        match lineItemsCheck items with
        | some e => (db, e)
        | none =>
          if notesTooLongCheck o.notes then (db, .notesTooLong)
          else
            match reserveLoop db.lessons items with
            | .badId ls _ => ({ db with lessons := ls }, .internalError)
            | .noSpace ls lid => ({ db with lessons := ls }, .noSpace lid)
            | .ok ls =>
              let order : OrderRec :=
                { orderNumber := none,
                  name := o.name,
                  phone := o.phone,
                  items := items,
                  notes := o.notes.getD "",
                  status := none,
                  createdAt := now }
              ({ db with
                  lessons := ls,
                  orders := db.orders ++ [order] },
               .success db.orders.length none)

/-- `normalizeLessons`: the response mapper of `GET /lessons` and
`GET /search`, `l => ({...l, totalSpace: l.space})` — it overwrites
`totalSpace` with the current `space` on every read. -/
def normalizeLessons (lessons : List Lesson) : List Lesson :=
  lessons.map fun l => { l with totalSpace := l.space }

/-- `GET /lessons`: the lessons collection as reported to clients. -/
def getLessons (db : DB) : List Lesson :=
  normalizeLessons db.lessons

/-- The body of variant 1's `POST /lessons`. -/
structure LessonInput where
  topic : String
  location : String
  price : Int
  space : Int
  icon : String
deriving Repr, DecidableEq

/-- Variant 1's `POST /lessons` (lines 191-220): validation, then insert
of `{topic, location, price, space, icon, totalSpace: space}`. `newId` is
the ObjectId the driver mints. `none` is a 400 response. -/
def postLesson (db : DB) (inp : LessonInput) (newId : String) : Option DB :=
  if inp.topic = "" ∨ inp.location = "" ∨ inp.icon = "" then none
  else if 50 < inp.topic.length then none
  else if 50 < inp.location.length then none
  else if inp.price < 0 then none
  else if inp.space < 0 then none
  else if ¬ strEndsWith inp.icon ".png" then none
  else
    some { db with
            lessons := db.lessons ++
              [{ id := newId, topic := inp.topic, location := inp.location,
                 price := inp.price, space := inp.space, icon := inp.icon,
                 totalSpace := inp.space }] }

/-- One queued `POST /orders` request against variant 1, with the wall
clock values the handler reads. -/
structure OrderReq where
  raw : RawOrder
  year : Nat
  now : Nat
deriving Repr, DecidableEq

/-- Sequential processing of a list of requests by variant 1. -/
def runOrders (db : DB) : List OrderReq → DB × List OrderResult
  | [] => (db, [])
  | r :: rs =>
    let p := placeOrder_v1 db r.raw r.year r.now
    let q := runOrders p.1 rs
    (q.1, p.2 :: q.2)

/-- Whether a `POST /orders` call produced the success response. -/
def OrderResult.isSuccess : OrderResult → Bool
  | .success _ _ => true
  | _ => false

/-- The sequence values issued to the successful calls of a request list,
in call order: on each success the minted number embeds the counter value
just after that call's `$inc`. -/
def issuedSeqs (db : DB) : List OrderReq → List Int
  | [] => []
  | r :: rs =>
    let p := placeOrder_v1 db r.raw r.year r.now
    if p.2.isSuccess then counterVal p.1.counter :: issuedSeqs p.1 rs
    else issuedSeqs p.1 rs

/-- Total quantity requested for one lesson id across an order's line
items. -/
def sumQty : List RawLineItem → String → Int
  | [], _ => 0
  | i :: rest, lid => (if i.id = lid then i.qty else 0) + sumQty rest lid

/-- The lesson a line-item id refers to: the first document of the
collection with that `_id`. -/
def findLesson : List Lesson → String → Option Lesson
  | [], _ => none
  | l :: rest, lid => if l.id = lid then some l else findLesson rest lid

/-- The lessons collection carried by a reserve-loop outcome. -/
def ReserveOutcome.lessonsOf : ReserveOutcome → List Lesson
  | .ok ls => ls
  | .noSpace ls _ => ls
  | .badId ls _ => ls

/-- `updateOne` preserves the set of document ids. -/
theorem tryReserve_map_id (ls : List Lesson) (lid : String) (q : Int) :
    (tryReserve ls lid q).1.map Lesson.id = ls.map Lesson.id := by
  induction ls with
  | nil => rfl
  | cons l rest ih =>
    by_cases h : l.id = lid ∧ q ≤ l.space
    · simp [tryReserve, h]
    · simp [tryReserve, h, ih]

/-- `updateOne` never touches the stored `totalSpace` of any document. -/
theorem tryReserve_map_totalSpace (ls : List Lesson) (lid : String) (q : Int) :
    (tryReserve ls lid q).1.map Lesson.totalSpace = ls.map Lesson.totalSpace := by
  induction ls with
  | nil => rfl
  | cons l rest ih =>
    by_cases h : l.id = lid ∧ q ≤ l.space
    · simp [tryReserve, h]
    · simp [tryReserve, h, ih]

/-- When `matchedCount = 0` the collection is unchanged. -/
theorem tryReserve_not_matched (ls : List Lesson) (lid : String) (q : Int)
    (h : (tryReserve ls lid q).2 = false) : (tryReserve ls lid q).1 = ls := by
  induction ls with
  | nil => rfl
  | cons l rest ih =>
    by_cases hc : l.id = lid ∧ q ≤ l.space
    · simp [tryReserve, hc] at h
    · simp only [tryReserve, if_neg hc] at h ⊢
      simp [ih h]

/-- The conditional decrement keeps every `space` non-negative. -/
theorem tryReserve_nonneg (ls : List Lesson) (lid : String) (q : Int) :
    (∀ l ∈ ls, 0 ≤ l.space) → ∀ l' ∈ (tryReserve ls lid q).1, 0 ≤ l'.space := by
  induction ls with
  | nil => intro _ l' h; simp [tryReserve] at h
  | cons l rest ih =>
    intro hls l' h
    by_cases hc : l.id = lid ∧ q ≤ l.space
    · simp only [tryReserve, if_pos hc] at h
      rcases List.mem_cons.mp h with h | h
      · subst h; exact Int.sub_nonneg.mpr hc.2
      · exact hls l' (List.mem_cons_of_mem _ h)
    · simp only [tryReserve, if_neg hc] at h
      rcases List.mem_cons.mp h with h | h
      · subst h; exact hls l' (List.mem_cons_self _ _)
      · exact ih (fun x hx => hls x (List.mem_cons_of_mem _ hx)) l' h

/-- A filter on an id absent from the collection matches nothing. -/
theorem tryReserve_not_present (ls : List Lesson) (lid : String) (q : Int)
    (h : ∀ l ∈ ls, l.id ≠ lid) : (tryReserve ls lid q).2 = false := by
  induction ls with
  | nil => rfl
  | cons l rest ih =>
    have hne : ¬ (l.id = lid ∧ q ≤ l.space) := by
      intro hc; exact h l (List.mem_cons_self _ _) hc.1
    simp only [tryReserve, if_neg hne]
    exact ih (fun x hx => h x (List.mem_cons_of_mem _ hx))

/-- The conditional decrement on one id leaves every other id's document
untouched. -/
theorem tryReserve_find_other (ls : List Lesson) (lid lid' : String) (q : Int)
    (h : lid' ≠ lid) :
    findLesson (tryReserve ls lid q).1 lid' = findLesson ls lid' := by
  induction ls with
  | nil => rfl
  | cons l rest ih =>
    by_cases hc : l.id = lid ∧ q ≤ l.space
    · have hne : lid ≠ lid' := fun he => h he.symm
      simp [tryReserve, hc, findLesson, hne]
    · by_cases hl : l.id = lid'
      · simp only [tryReserve, if_neg hc]
        simp [findLesson, hl]
      · simp only [tryReserve, if_neg hc]
        simp [findLesson, hl, ih]

/-- When the filter matches under unique ids, the matched document is the
one `findLesson` names, it had enough space, and afterwards exactly its
`space` is lower by the requested quantity. -/
theorem tryReserve_find_matched (ls : List Lesson) (lid : String) (q : Int) :
    (ls.map Lesson.id).Nodup → (tryReserve ls lid q).2 = true →
    ∃ l0, findLesson ls lid = some l0 ∧ q ≤ l0.space ∧
      findLesson (tryReserve ls lid q).1 lid =
        some { l0 with space := l0.space - q } := by
  induction ls with
  | nil => intro _ h; simp [tryReserve] at h
  | cons l rest ih =>
    intro hnd hm
    have hnd2 : l.id ∉ rest.map Lesson.id ∧ (rest.map Lesson.id).Nodup := by
      rw [List.map_cons] at hnd
      exact List.nodup_cons.mp hnd
    by_cases hc : l.id = lid ∧ q ≤ l.space
    · refine ⟨l, ?_, hc.2, ?_⟩
      · simp [findLesson, hc.1]
      · simp only [tryReserve, if_pos hc]
        simp [findLesson, hc.1]
    · simp only [tryReserve, if_neg hc] at hm
      by_cases hl : l.id = lid
      · exfalso
        have hnp : ∀ x ∈ rest, x.id ≠ lid := by
          intro x hx hxe
          have hmem : x.id ∈ rest.map Lesson.id := List.mem_map_of_mem _ hx
          rw [hxe, ← hl] at hmem
          exact hnd2.1 hmem
        rw [tryReserve_not_present rest lid q hnp] at hm
        exact Bool.false_ne_true hm
      · obtain ⟨l0, hf, hq, hf'⟩ := ih hnd2.2 hm
        refine ⟨l0, ?_, hq, ?_⟩
        · simp [findLesson, hl, hf]
        · simp only [tryReserve, if_neg hc]
          simp [findLesson, hl, hf']

/-- The reserve loop preserves the set of document ids. -/
theorem reserveLoop_map_id (items : List RawLineItem) :
    ∀ ls, ((reserveLoop ls items).lessonsOf).map Lesson.id = ls.map Lesson.id := by
  induction items with
  | nil => intro ls; rfl
  | cons item rest ih =>
    intro ls
    by_cases hv : isValidObjectId item.id
    · cases hb : (tryReserve ls item.id item.qty).2 with
      | true =>
        simp only [reserveLoop, if_pos hv, hb, if_true]
        rw [ih, tryReserve_map_id]
      | false =>
        simp only [reserveLoop, if_pos hv, hb, Bool.false_eq_true, if_false,
          ReserveOutcome.lessonsOf]
        rw [tryReserve_not_matched ls item.id item.qty hb]
    · simp only [reserveLoop, if_neg hv, ReserveOutcome.lessonsOf]

/-- The reserve loop never touches the stored `totalSpace` of any
document. -/
theorem reserveLoop_map_totalSpace (items : List RawLineItem) :
    ∀ ls, ((reserveLoop ls items).lessonsOf).map Lesson.totalSpace =
      ls.map Lesson.totalSpace := by
  induction items with
  | nil => intro ls; rfl
  | cons item rest ih =>
    intro ls
    by_cases hv : isValidObjectId item.id
    · cases hb : (tryReserve ls item.id item.qty).2 with
      | true =>
        simp only [reserveLoop, if_pos hv, hb, if_true]
        rw [ih, tryReserve_map_totalSpace]
      | false =>
        simp only [reserveLoop, if_pos hv, hb, Bool.false_eq_true, if_false,
          ReserveOutcome.lessonsOf]
        rw [tryReserve_not_matched ls item.id item.qty hb]
    · simp only [reserveLoop, if_neg hv, ReserveOutcome.lessonsOf]

/-- The reserve loop keeps every `space` non-negative, whatever its
outcome. -/
theorem reserveLoop_nonneg (items : List RawLineItem) :
    ∀ ls, (∀ l ∈ ls, 0 ≤ l.space) →
      ∀ l' ∈ (reserveLoop ls items).lessonsOf, 0 ≤ l'.space := by
  induction items with
  | nil => intro ls h; exact h
  | cons item rest ih =>
    intro ls h
    by_cases hv : isValidObjectId item.id
    · cases hb : (tryReserve ls item.id item.qty).2 with
      | true =>
        simp only [reserveLoop, if_pos hv, hb, if_true]
        exact ih _ (tryReserve_nonneg ls item.id item.qty h)
      | false =>
        simp only [reserveLoop, if_pos hv, hb, Bool.false_eq_true, if_false,
          ReserveOutcome.lessonsOf]
        exact tryReserve_nonneg ls item.id item.qty h
    · simp only [reserveLoop, if_neg hv, ReserveOutcome.lessonsOf]
      exact h

/-- A failing reserve loop decomposes as: a successful prefix whose
decrements are left in place, then the failing item, whose conditional
update matched nothing on the state the prefix left behind. -/
theorem reserveLoop_noSpace_split (items : List RawLineItem) :
    ∀ ls ls' lid, reserveLoop ls items = .noSpace ls' lid →
      ∃ pre it rest, items = pre ++ it :: rest ∧ it.id = lid ∧
        isValidObjectId it.id = true ∧
        reserveLoop ls pre = .ok ls' ∧
        (tryReserve ls' it.id it.qty).2 = false := by
  induction items with
  | nil => intro ls ls' lid h; simp [reserveLoop] at h
  | cons item rest ih =>
    intro ls ls' lid h
    by_cases hv : isValidObjectId item.id
    · cases hb : (tryReserve ls item.id item.qty).2 with
      | true =>
        simp only [reserveLoop, if_pos hv, hb, if_true] at h
        obtain ⟨pre, it, rest', heq, hid, hvv, hok, hfail⟩ := ih _ _ _ h
        refine ⟨item :: pre, it, rest', by rw [heq, List.cons_append], hid, hvv, ?_, hfail⟩
        simp only [reserveLoop, if_pos hv, hb, if_true]
        exact hok
      | false =>
        simp only [reserveLoop, if_pos hv, hb, Bool.false_eq_true, if_false] at h
        have hls : (tryReserve ls item.id item.qty).1 = ls :=
          tryReserve_not_matched ls item.id item.qty hb
        have h1 : (tryReserve ls item.id item.qty).1 = ls' := by
          cases h; rfl
        have h2 : item.id = lid := by cases h; rfl
        refine ⟨[], item, rest, rfl, h2, hv, ?_, ?_⟩
        · rw [reserveLoop, ← h1, hls]
        · rw [← h1, hls]
          exact hb
    · simp only [reserveLoop, if_neg hv] at h
      cases h

/-- `findLesson` returns a member of the collection. -/
theorem findLesson_mem (ls : List Lesson) (lid : String) (l : Lesson)
    (h : findLesson ls lid = some l) : l ∈ ls := by
  induction ls with
  | nil => simp [findLesson] at h
  | cons x rest ih =>
    by_cases hx : x.id = lid
    · simp only [findLesson, if_pos hx, Option.some.injEq] at h
      exact h ▸ List.mem_cons_self _ _
    · simp only [findLesson, if_neg hx] at h
      exact List.mem_cons_of_mem _ (ih h)

/-- A fully successful reserve loop lowers each lesson's `space` by
exactly the total quantity the order requested for it, item by item
against the intermediate states. -/
theorem reserveLoop_ok_find (items : List RawLineItem) :
    ∀ ls ls', (ls.map Lesson.id).Nodup → reserveLoop ls items = .ok ls' →
      ∀ lid l0, findLesson ls lid = some l0 →
        findLesson ls' lid = some { l0 with space := l0.space - sumQty items lid } := by
  induction items with
  | nil =>
    intro ls ls' _ h lid l0 hf
    have hls : ls = ls' := by cases h; rfl
    subst hls
    simpa [sumQty] using hf
  | cons item rest ih =>
    intro ls ls' hnd h lid l0 hf
    by_cases hv : isValidObjectId item.id
    · cases hb : (tryReserve ls item.id item.qty).2 with
      | true =>
        simp only [reserveLoop, if_pos hv, hb, if_true] at h
        have hnd1 : (((tryReserve ls item.id item.qty).1).map Lesson.id).Nodup := by
          rw [tryReserve_map_id]; exact hnd
        by_cases hl : item.id = lid
        · subst hl
          obtain ⟨m0, hfm, _, hfm'⟩ := tryReserve_find_matched ls item.id item.qty hnd hb
          rw [hf] at hfm
          have hm0 : m0 = l0 := by cases hfm; rfl
          subst hm0
          have hrest := ih _ _ hnd1 h item.id _ hfm'
          rw [hrest]
          simp [sumQty, sub_sub]
        · have hfo : findLesson (tryReserve ls item.id item.qty).1 lid = some l0 := by
            rw [tryReserve_find_other ls item.id lid item.qty (fun he => hl he.symm), hf]
          have hrest := ih _ _ hnd1 h lid l0 hfo
          rw [hrest]
          simp [sumQty, hl]
      | false =>
        simp only [reserveLoop, if_pos hv, hb, Bool.false_eq_true, if_false] at h
        cases h
    · simp only [reserveLoop, if_neg hv] at h
      cases h

/-- An order that reserves in full never asked for more of any lesson,
summed across duplicate line items, than that lesson had to start with. -/
theorem reserveLoop_ok_sum_le (items : List RawLineItem) (ls ls' : List Lesson)
    (hnd : (ls.map Lesson.id).Nodup) (hpos : ∀ l ∈ ls, 0 ≤ l.space)
    (h : reserveLoop ls items = .ok ls') (lid : String) (l0 : Lesson)
    (hf : findLesson ls lid = some l0) :
    sumQty items lid ≤ l0.space := by
  have hfind := reserveLoop_ok_find items ls ls' hnd h lid l0 hf
  have hmem := findLesson_mem ls' lid _ hfind
  have hnn := reserveLoop_nonneg items ls hpos
  rw [h] at hnn
  have h0 : (0 : Int) ≤ l0.space - sumQty items lid := hnn _ hmem
  exact sub_nonneg.mp h0

/-- Full characterisation of a successful variant-1 call: the reserve loop
completed on the submitted items, the counter advanced by one `$inc`, the
minted number is the formatted post-increment sequence, and exactly one
order record carrying that number was appended. -/
theorem placeOrder_v1_success_spec (db : DB) (o : RawOrder) (y t : Nat)
    (db' : DB) (i : Nat) (num : Option String)
    (h : placeOrder_v1 db o y t = (db', .success i num)) :
    ∃ items, o.lessons = some items ∧
      reserveLoop db.lessons items = .ok db'.lessons ∧
      db'.counter = (nextSeq db.counter).1 ∧
      num = some (formatOrderNumber y (nextSeq db.counter).2) ∧
      i = db.orders.length ∧
      db'.orders = db.orders ++
        [{ orderNumber := num, name := o.name, phone := o.phone,
           items := items, notes := o.notes.getD "", status := some "pending",
           createdAt := t }] := by
  unfold placeOrder_v1 at h
  split at h
  · simp at h
  · split at h
    · simp at h
    · split at h
      · simp at h
      · rename_i items heqi
        split at h
        · simp at h
        · split at h
          · simp at h
          · simp at h
          · rename_i ls heqok
            rw [Prod.mk.injEq] at h
            obtain ⟨hdb, hres⟩ := h
            rw [OrderResult.success.injEq] at hres
            obtain ⟨hi, hnum⟩ := hres
            subst hdb
            exact ⟨items, heqi, heqok, rfl, hnum.symm, hi.symm, by rw [← hnum]⟩

/-- Full characterisation of a variant-1 capacity failure: the error names
a lesson id, no order is appended, the counter is untouched, and the
lessons collection is whatever the reserve loop left behind. -/
theorem placeOrder_v1_noSpace_spec (db : DB) (o : RawOrder) (y t : Nat)
    (db' : DB) (lid : String)
    (h : placeOrder_v1 db o y t = (db', .noSpace lid)) :
    db'.orders = db.orders ∧ db'.counter = db.counter ∧
    ∃ items, o.lessons = some items ∧
      reserveLoop db.lessons items = .noSpace db'.lessons lid := by
  unfold placeOrder_v1 at h
  split at h
  · simp at h
  · split at h
    · simp at h
    · split at h
      · simp at h
      · rename_i items heqi
        split at h
        · simp at h
        · split at h
          · simp at h
          · rename_i ls lid' heqns
            rw [Prod.mk.injEq] at h
            obtain ⟨hdb, hres⟩ := h
            rw [OrderResult.noSpace.injEq] at hres
            subst hdb
            exact ⟨rfl, rfl, items, heqi, by rw [← hres]; exact heqns⟩
          · simp at h

/-- A variant-1 call that returns one of its validation errors leaves the
whole database state unchanged. -/
theorem placeOrder_v1_validation_state (db : DB) (o : RawOrder) (y t : Nat)
    (db' : DB) (r : OrderResult)
    (h : placeOrder_v1 db o y t = (db', r))
    (hr : r = .invalidName ∨ r = .invalidPhone ∨ r = .invalidLessons) :
    db' = db := by
  unfold placeOrder_v1 at h
  split at h
  · rw [Prod.mk.injEq] at h; exact h.1.symm
  · split at h
    · rw [Prod.mk.injEq] at h; exact h.1.symm
    · split at h
      · rw [Prod.mk.injEq] at h; exact h.1.symm
      · split at h
        · rw [Prod.mk.injEq] at h; exact h.1.symm
        · split at h
          · rw [Prod.mk.injEq] at h
            rcases h.2.symm ▸ hr with hc | hc | hc <;> cases hc
          · rw [Prod.mk.injEq] at h
            rcases h.2.symm ▸ hr with hc | hc | hc <;> cases hc
          · rw [Prod.mk.injEq] at h
            rcases h.2.symm ▸ hr with hc | hc | hc <;> cases hc

/-- The line-item check can only pass or report one of its two errors. -/
theorem lineItemsCheck_result (items : List RawLineItem) :
    lineItemsCheck items = none ∨
    lineItemsCheck items = some .invalidLessonId ∨
    lineItemsCheck items = some .invalidQty := by
  induction items with
  | nil => exact Or.inl rfl
  | cons item rest ih =>
    simp only [lineItemsCheck]
    by_cases h1 : item.id = "" ∨ ¬ isValidObjectId item.id
    · rw [if_pos h1]; right; left; rfl
    · rw [if_neg h1]
      by_cases h2 : item.qty ≤ 0
      · rw [if_pos h2]; right; right; rfl
      · rw [if_neg h2]; exact ih

/-- When the line-item check passes, every entry has a well-formed id and
a positive quantity. -/
theorem lineItemsCheck_none (items : List RawLineItem) :
    lineItemsCheck items = none →
    ∀ it ∈ items, isValidObjectId it.id = true ∧ 0 < it.qty := by
  induction items with
  | nil => intro _ it hit; cases hit
  | cons item rest ih =>
    intro h it hit
    simp only [lineItemsCheck] at h
    by_cases h1 : item.id = "" ∨ ¬ isValidObjectId item.id
    · rw [if_pos h1] at h; cases h
    · rw [if_neg h1] at h
      by_cases h2 : item.qty ≤ 0
      · rw [if_pos h2] at h; cases h
      · rw [if_neg h2] at h
        rcases List.mem_cons.mp hit with he | he
        · subst he
          exact ⟨not_not.mp (not_or.mp h1).2, not_le.mp h2⟩
        · exact ih h it he

/-- Full characterisation of a successful variant-2 call: validation all
passed, the reserve loop completed, the counter is untouched, no order
number exists, and one order record without a number was appended. -/
theorem placeOrder_v2_success_spec (db : DB) (o : RawOrder) (t : Nat)
    (db' : DB) (i : Nat) (num : Option String)
    (h : placeOrder_v2 db o t = (db', .success i num)) :
    ∃ items, o.lessons = some items ∧
      lineItemsCheck items = none ∧
      reserveLoop db.lessons items = .ok db'.lessons ∧
      db'.counter = db.counter ∧
      num = none ∧
      i = db.orders.length ∧
      db'.orders = db.orders ++
        [{ orderNumber := none, name := o.name, phone := o.phone,
           items := items, notes := o.notes.getD "", status := none,
           createdAt := t }] := by
  unfold placeOrder_v2 at h
  split at h
  · simp at h
  · split at h
    · simp at h
    · split at h
      · simp at h
      · rename_i items heqi
        split at h
        · simp at h
        · split at h
          · rename_i e heqe
            rcases lineItemsCheck_result items with hc | hc | hc <;>
              rw [heqe] at hc <;> simp_all
          · rename_i heqe
            split at h
            · simp at h
            · split at h
              · simp at h
              · simp at h
              · rename_i ls heqok
                rw [Prod.mk.injEq] at h
                obtain ⟨hdb, hres⟩ := h
                rw [OrderResult.success.injEq] at hres
                obtain ⟨hi, hnum⟩ := hres
                subst hdb
                exact ⟨items, heqi, heqe, heqok, rfl, hnum.symm, hi.symm, rfl⟩

/-- A variant-2 call that returns any of its validation errors leaves the
whole database state unchanged. -/
theorem placeOrder_v2_validation_state (db : DB) (o : RawOrder) (t : Nat)
    (db' : DB) (r : OrderResult)
    (h : placeOrder_v2 db o t = (db', r))
    (hr : r = .invalidName ∨ r = .invalidPhone ∨ r = .invalidLessons ∨
          r = .invalidLessonId ∨ r = .invalidQty ∨ r = .notesTooLong) :
    db' = db := by
  unfold placeOrder_v2 at h
  split at h
  · rw [Prod.mk.injEq] at h; exact h.1.symm
  · split at h
    · rw [Prod.mk.injEq] at h; exact h.1.symm
    · split at h
      · rw [Prod.mk.injEq] at h; exact h.1.symm
      · split at h
        · rw [Prod.mk.injEq] at h; exact h.1.symm
        · split at h
          · rw [Prod.mk.injEq] at h; exact h.1.symm
          · split at h
            · rw [Prod.mk.injEq] at h; exact h.1.symm
            · split at h
              · rw [Prod.mk.injEq] at h
                rcases h.2.symm ▸ hr with hc|hc|hc|hc|hc|hc <;> cases hc
              · rw [Prod.mk.injEq] at h
                rcases h.2.symm ▸ hr with hc|hc|hc|hc|hc|hc <;> cases hc
              · rw [Prod.mk.injEq] at h
                rcases h.2.symm ▸ hr with hc|hc|hc|hc|hc|hc <;> cases hc

/-- The post-increment counter reads one more than the pre-call value,
whether or not the counter document existed. -/
theorem nextSeq_counterVal (c : Option Int) :
    counterVal (nextSeq c).1 = counterVal c + 1 ∧
    (nextSeq c).2 = counterVal c + 1 := by
  cases c <;> simp [nextSeq, counterVal]

/-- No `POST /orders` call of variant 1 ever lowers the counter. -/
theorem placeOrder_v1_counter_mono (db : DB) (o : RawOrder) (y t : Nat) :
    counterVal db.counter ≤ counterVal (placeOrder_v1 db o y t).1.counter := by
  unfold placeOrder_v1
  split
  · exact le_refl _
  · split
    · exact le_refl _
    · split
      · exact le_refl _
      · split
        · exact le_refl _
        · split
          · exact le_refl _
          · exact le_refl _
          · show counterVal db.counter ≤ counterVal (nextSeq db.counter).1
            rw [(nextSeq_counterVal db.counter).1]
            exact le_add_of_nonneg_right zero_le_one

/-- On success of variant 1, the counter advanced by exactly one and the
minted number is the formatted post-call counter value. -/
theorem placeOrder_v1_success_counter (db : DB) (o : RawOrder) (y t : Nat)
    (db' : DB) (i : Nat) (num : Option String)
    (h : placeOrder_v1 db o y t = (db', .success i num)) :
    counterVal db'.counter = counterVal db.counter + 1 ∧
    num = some (formatOrderNumber y (counterVal db'.counter)) := by
  obtain ⟨items, _, _, hc, hnum, _, _⟩ :=
    placeOrder_v1_success_spec db o y t db' i num h
  have h1 := (nextSeq_counterVal db.counter).1
  have h2 := (nextSeq_counterVal db.counter).2
  constructor
  · rw [hc, h1]
  · rw [hnum, hc, h1, h2]

/-- `isSuccess` detects exactly the success responses. -/
theorem isSuccess_iff (r : OrderResult) :
    r.isSuccess = true ↔ ∃ i num, r = .success i num := by
  cases r <;> simp [OrderResult.isSuccess]

/-- Every sequence value issued after a state is strictly above that
state's counter. -/
theorem issuedSeqs_gt (rs : List OrderReq) :
    ∀ db x, x ∈ issuedSeqs db rs → counterVal db.counter < x := by
  induction rs with
  | nil => intro db x hx; cases hx
  | cons r rest ih =>
    intro db x hx
    simp only [issuedSeqs] at hx
    by_cases hs : ((placeOrder_v1 db r.raw r.year r.now).2).isSuccess = true
    · rw [if_pos hs] at hx
      obtain ⟨i, num, hres⟩ := (isSuccess_iff _).mp hs
      have hcall : placeOrder_v1 db r.raw r.year r.now =
          ((placeOrder_v1 db r.raw r.year r.now).1, .success i num) := by
        rw [← hres]
      have hcnt := (placeOrder_v1_success_counter db r.raw r.year r.now _ i num hcall).1
      rcases List.mem_cons.mp hx with he | he
      · subst he
        rw [hcnt]
        exact lt_add_of_pos_right _ zero_lt_one
      · have hlt := ih _ x he
        have hmono := placeOrder_v1_counter_mono db r.raw r.year r.now
        exact lt_of_le_of_lt hmono hlt
    · rw [if_neg hs] at hx
      have hlt := ih _ x hx
      have hmono := placeOrder_v1_counter_mono db r.raw r.year r.now
      exact lt_of_le_of_lt hmono hlt

/-- The sequence values issued across any run of requests are strictly
increasing in call order. -/
theorem issuedSeqs_chain (rs : List OrderReq) :
    ∀ db, List.Chain' (· < ·) (issuedSeqs db rs) := by
  induction rs with
  | nil => intro db; simp [issuedSeqs]
  | cons r rest ih =>
    intro db
    simp only [issuedSeqs]
    by_cases hs : ((placeOrder_v1 db r.raw r.year r.now).2).isSuccess = true
    · rw [if_pos hs]
      refine List.chain'_cons'.mpr ⟨?_, ih _⟩
      intro y hy
      exact issuedSeqs_gt rest _ y (List.mem_of_mem_head? hy)
    · rw [if_neg hs]
      exact ih _

/-- The lessons collection a variant-1 call leaves behind is either
untouched (validation failure) or exactly what the reserve loop left. -/
theorem placeOrder_v1_lessons (db : DB) (o : RawOrder) (y t : Nat) :
    (placeOrder_v1 db o y t).1.lessons = db.lessons ∨
    ∃ items, o.lessons = some items ∧
      (placeOrder_v1 db o y t).1.lessons =
        (reserveLoop db.lessons items).lessonsOf := by
  unfold placeOrder_v1
  split
  · exact Or.inl rfl
  · split
    · exact Or.inl rfl
    · split
      · exact Or.inl rfl
      · rename_i items heq
        split
        · exact Or.inl rfl
        · split
          · rename_i ls lid hbad
            exact Or.inr ⟨items, heq, by rw [hbad]; rfl⟩
          · rename_i ls lid hns
            exact Or.inr ⟨items, heq, by rw [hns]; rfl⟩
          · rename_i ls hok
            exact Or.inr ⟨items, heq, by rw [hok]; rfl⟩

/-- The lessons collection a variant-2 call leaves behind is either
untouched (validation failure) or exactly what the reserve loop left. -/
theorem placeOrder_v2_lessons (db : DB) (o : RawOrder) (t : Nat) :
    (placeOrder_v2 db o t).1.lessons = db.lessons ∨
    ∃ items, o.lessons = some items ∧
      (placeOrder_v2 db o t).1.lessons =
        (reserveLoop db.lessons items).lessonsOf := by
  unfold placeOrder_v2
  split
  · exact Or.inl rfl
  · split
    · exact Or.inl rfl
    · split
      · exact Or.inl rfl
      · rename_i items heq
        split
        · exact Or.inl rfl
        · split
          · exact Or.inl rfl
          · split
            · exact Or.inl rfl
            · split
              · rename_i ls lid hbad
                exact Or.inr ⟨items, heq, by rw [hbad]; rfl⟩
              · rename_i ls lid hns
                exact Or.inr ⟨items, heq, by rw [hns]; rfl⟩
              · rename_i ls hok
                exact Or.inr ⟨items, heq, by rw [hok]; rfl⟩

/-- Full characterisation of a variant-2 capacity failure: no order is
appended, the counter is untouched, and the lessons collection is
whatever the reserve loop left behind. -/
theorem placeOrder_v2_noSpace_spec (db : DB) (o : RawOrder) (t : Nat)
    (db' : DB) (lid : String)
    (h : placeOrder_v2 db o t = (db', .noSpace lid)) :
    db'.orders = db.orders ∧ db'.counter = db.counter ∧
    ∃ items, o.lessons = some items ∧
      reserveLoop db.lessons items = .noSpace db'.lessons lid := by
  unfold placeOrder_v2 at h
  split at h
  · simp at h
  · split at h
    · simp at h
    · split at h
      · simp at h
      · rename_i items heqi
        split at h
        · simp at h
        · split at h
          · rename_i e heqe
            rcases lineItemsCheck_result items with hc | hc | hc <;>
              rw [heqe] at hc <;> simp_all
          · split at h
            · simp at h
            · split at h
              · simp at h
              · rename_i ls lid' heqns
                rw [Prod.mk.injEq] at h
                obtain ⟨hdb, hres⟩ := h
                rw [OrderResult.noSpace.injEq] at hres
                subst hdb
                exact ⟨rfl, rfl, items, heqi, by rw [← hres]; exact heqns⟩
              · simp at h

/-- A successful `POST /lessons` of variant 1 appends exactly one document
whose `totalSpace` is initialised from the submitted `space`. -/
theorem postLesson_some (db : DB) (inp : LessonInput) (newId : String)
    (db' : DB) (h : postLesson db inp newId = some db') :
    db'.lessons = db.lessons ++
      [{ id := newId, topic := inp.topic, location := inp.location,
         price := inp.price, space := inp.space, icon := inp.icon,
         totalSpace := inp.space }] ∧
    db'.orders = db.orders ∧ db'.counter = db.counter := by
  unfold postLesson at h
  split at h
  · cases h
  · split at h
    · cases h
    · split at h
      · cases h
      · split at h
        · cases h
        · split at h
          · cases h
          · split at h
            · cases h
            · rw [Option.some.injEq] at h
              subst h
              exact ⟨rfl, rfl, rfl⟩

/-- `padStart` pads up to the requested minimum length and never shrinks
a longer string. -/
theorem padStart_length (s : String) (n : Nat) (c : Char) :
    (padStart s n c).length = max n s.length := by
  have hrep : (String.mk (List.replicate (n - s.length) c)).length = n - s.length := by
    show (List.replicate (n - s.length) c).length = n - s.length
    exact List.length_replicate _ _
  rw [padStart, String.length_append, hrep]
  omega

/-- A string at least as long as the requested width is returned
verbatim: padding never truncates. -/
theorem padStart_of_le (s : String) (n : Nat) (c : Char) (h : n ≤ s.length) :
    padStart s n c = s := by
  rw [padStart, Nat.sub_eq_zero_of_le h]
  cases s with
  | mk data => rfl

/-- The original digits survive as a suffix of the padded string. -/
theorem padStart_suffix (s : String) (n : Nat) (c : Char) :
    ∃ p, padStart s n c = p ++ s :=
  ⟨String.mk (List.replicate (n - s.length) c), rfl⟩

/-- `GET /lessons` reports `totalSpace` recomputed from the current
`space` of every document. -/
theorem getLessons_totalSpace (db : DB) :
    (getLessons db).map Lesson.totalSpace = db.lessons.map Lesson.space := by
  simp [getLessons, normalizeLessons, List.map_map]

/-- Notes of at most 250 characters pass the variant-2 notes check. -/
theorem notesTooLongCheck_le (s : String) (h : s.length ≤ 250) :
    notesTooLongCheck (some s) = false := by
  simp only [notesTooLongCheck, Bool.and_eq_false_iff]
  right
  simpa using Nat.not_lt.mpr h

/-- Notes of 251 characters or more fail the variant-2 notes check. -/
theorem notesTooLongCheck_gt (s : String) (h : 251 ≤ s.length) :
    notesTooLongCheck (some s) = true := by
  have hne : s ≠ "" := by
    intro he
    rw [he] at h
    exact absurd h (by decide)
  simp only [notesTooLongCheck, Bool.and_eq_true]
  exact ⟨by simpa using hne, by simpa using Nat.lt_of_lt_of_le (by decide) h⟩

/-- When every earlier validation passes and the notes are over the limit,
variant 2 answers `notesTooLong` and leaves the state untouched. -/
theorem placeOrder_v2_notesTooLong (db : DB) (o : RawOrder) (t : Nat)
    (items : List RawLineItem)
    (hn : nameOk o.name = true) (hp : phoneOk o.phone = true)
    (hitems : o.lessons = some items) (hne : items.isEmpty = false)
    (hli : lineItemsCheck items = none)
    (hnotes : notesTooLongCheck o.notes = true) :
    placeOrder_v2 db o t = (db, .notesTooLong) := by
  unfold placeOrder_v2
  rw [if_neg (by simp [hn]), if_neg (by simp [hp]), hitems]
  simp only [hli, hne, Bool.false_eq_true, if_false, if_pos hnotes]

/-- Hex string of a sample lesson ObjectId. -/
def lidA : String := "aaaaaaaaaaaaaaaaaaaaaaaa"

/-- Hex string of a second sample lesson ObjectId. -/
def lidB : String := "bbbbbbbbbbbbbbbbbbbbbbbb"

/-- A sample lesson document with 5 remaining places. -/
def lessonA : Lesson :=
  { id := lidA, topic := "math", location := "hendon", price := 10,
    space := 5, icon := "m.png", totalSpace := 5 }

/-- A sample lesson document with 1 remaining place. -/
def lessonB : Lesson :=
  { id := lidB, topic := "art", location := "colindale", price := 8,
    space := 1, icon := "a.png", totalSpace := 1 }

/-- A sample database: two lessons, no orders, counter at 0. -/
def db0 : DB :=
  { lessons := [lessonA, lessonB], orders := [], counter := some 0 }

/-- A fully valid order body asking 2 places of the first lesson. -/
def oGood : RawOrder :=
  { name := "John Doe", phone := "07123456789",
    lessons := some [⟨lidA, 2⟩], notes := none }

/-- A two-item order whose second item exceeds the second lesson's
space. -/
def oTwo : RawOrder :=
  { name := "John Doe", phone := "07123456789",
    lessons := some [⟨lidA, 2⟩, ⟨lidB, 5⟩], notes := none }

/-- An order body with a zero quantity. -/
def oZero : RawOrder :=
  { name := "John Doe", phone := "07123456789",
    lessons := some [⟨lidA, 0⟩], notes := none }

/-- An order naming the same lesson in two line items. -/
def oDup : RawOrder :=
  { name := "John Doe", phone := "07123456789",
    lessons := some [⟨lidA, 2⟩, ⟨lidA, 2⟩], notes := none }

/-- An order body whose name fails the regex. -/
def oBadName : RawOrder :=
  { name := "J0", phone := "07123456789",
    lessons := some [⟨lidA, 1⟩], notes := none }

/-- A 251-character notes string. -/
def longNotes : String := String.mk (List.replicate 251 'a')

/-- A valid order body except for its over-long notes. -/
def oNotes : RawOrder :=
  { name := "John Doe", phone := "07123456789",
    lessons := some [⟨lidA, 1⟩], notes := some longNotes }

/-- The database produced by creating one lesson with 5 places through
`POST /lessons` on an empty store. -/
def dbC9 : DB :=
  (postLesson { lessons := [], orders := [], counter := some 0 }
    { topic := "math", location := "hendon", price := 10, space := 5,
      icon := "m.png" } lidA).getD
    { lessons := [], orders := [], counter := none }

/-- Claim C2 (confirmed): a lesson's remaining space never becomes
negative. The conditional decrement (`updateOne` with `space: {$gte: qty}`)
lowers `space` by the requested quantity only when `space` is at least
that quantity, leaves the collection unchanged and reports the failure
(`matchedCount = 0`) otherwise, and both variants of `POST /orders`
preserve non-negativity of every lesson's `space`. -/
theorem claim_C2_space_never_negative :
    (∀ (ls : List Lesson) (lid : String) (q : Int),
       ((tryReserve ls lid q).2 = false → (tryReserve ls lid q).1 = ls) ∧
       ((∀ l ∈ ls, 0 ≤ l.space) → ∀ l' ∈ (tryReserve ls lid q).1, 0 ≤ l'.space)) ∧
    (∀ (ls : List Lesson) (lid : String) (q : Int),
       (ls.map Lesson.id).Nodup → (tryReserve ls lid q).2 = true →
       ∃ l0, findLesson ls lid = some l0 ∧ q ≤ l0.space ∧
         findLesson (tryReserve ls lid q).1 lid =
           some { l0 with space := l0.space - q }) ∧
    (∀ (db : DB) (o : RawOrder) (y t : Nat),
       (∀ l ∈ db.lessons, 0 ≤ l.space) →
       (∀ l' ∈ (placeOrder_v1 db o y t).1.lessons, 0 ≤ l'.space) ∧
       (∀ l' ∈ (placeOrder_v2 db o t).1.lessons, 0 ≤ l'.space)) := by
  refine ⟨fun ls lid q =>
      ⟨tryReserve_not_matched ls lid q, tryReserve_nonneg ls lid q⟩,
    fun ls lid q => tryReserve_find_matched ls lid q,
    fun db o y t hpos => ⟨?_, ?_⟩⟩
  · rcases placeOrder_v1_lessons db o y t with hl | ⟨items, _, hl⟩
    · rw [hl]; exact hpos
    · rw [hl]; exact reserveLoop_nonneg items db.lessons hpos
  · rcases placeOrder_v2_lessons db o t with hl | ⟨items, _, hl⟩
    · rw [hl]; exact hpos
    · rw [hl]; exact reserveLoop_nonneg items db.lessons hpos

/-- Witness for C2 at a concrete database and order: after a successful
reservation of 2 of 5 places, the first reported lesson still has
non-negative space. -/
theorem claim_C2_witness :
    0 ≤ ((placeOrder_v1 db0 oGood 2025 0).1.lessons.headD lessonA).space := by
  have hpos : ∀ l ∈ db0.lessons, 0 ≤ l.space := by decide
  exact (claim_C2_space_never_negative.2.2 db0 oGood 2025 0 hpos).1 _ (by decide)

/-- Claim C3 (confirmed): a raw order failing validation gets the specific
validation error back, and the whole database state — lessons, orders and
the sequence counter — is exactly as before the call, in both variants. -/
theorem claim_C3_validation_no_side_effects :
    ∀ (db : DB) (o : RawOrder) (y t : Nat) (db' : DB) (r : OrderResult),
      (placeOrder_v1 db o y t = (db', r) →
        (r = .invalidName ∨ r = .invalidPhone ∨ r = .invalidLessons) →
        db' = db) ∧
      (placeOrder_v2 db o t = (db', r) →
        (r = .invalidName ∨ r = .invalidPhone ∨ r = .invalidLessons ∨
         r = .invalidLessonId ∨ r = .invalidQty ∨ r = .notesTooLong) →
        db' = db) :=
  fun db o y t db' r =>
    ⟨fun h hr => placeOrder_v1_validation_state db o y t db' r h hr,
     fun h hr => placeOrder_v2_validation_state db o t db' r h hr⟩

/-- Witness for C3: a name failing the regex is rejected as invalid with
the database unchanged. -/
theorem claim_C3_witness :
    placeOrder_v1 db0 oBadName 2025 0 = (db0, .invalidName) ∧ db0 = db0 :=
  ⟨rfl,
   (claim_C3_validation_no_side_effects db0 oBadName 2025 0 db0 .invalidName).1
     rfl (Or.inl rfl)⟩

/-- Claim C6 (confirmed): across any sequential run of requests, the
sequence values minted for the successful calls are strictly increasing
(hence pairwise distinct — no number repeats), and each successful call
raises the counter and embeds the fresh value in its order number. -/
theorem claim_C6_strictly_increasing_sequence :
    (∀ (db : DB) (rs : List OrderReq),
       List.Chain' (· < ·) (issuedSeqs db rs) ∧
       (issuedSeqs db rs).Pairwise (· < ·)) ∧
    (∀ (db : DB) (o : RawOrder) (y t : Nat) (db' : DB) (i : Nat)
       (num : Option String),
       placeOrder_v1 db o y t = (db', .success i num) →
       counterVal db.counter < counterVal db'.counter ∧
       num = some (formatOrderNumber y (counterVal db'.counter))) := by
  constructor
  · intro db rs
    have hch := issuedSeqs_chain rs db
    exact ⟨hch, List.chain'_iff_pairwise.mp hch⟩
  · intro db o y t db' i num h
    obtain ⟨h1, h2⟩ := placeOrder_v1_success_counter db o y t db' i num h
    refine ⟨?_, h2⟩
    rw [h1]
    exact lt_add_of_pos_right _ zero_lt_one

/-- Witness for C6: the sample successful call strictly raises the
counter. -/
theorem claim_C6_witness :
    counterVal db0.counter <
      counterVal (placeOrder_v1 db0 oGood 2025 0).1.counter :=
  (claim_C6_strictly_increasing_sequence.2 db0 oGood 2025 0
    (placeOrder_v1 db0 oGood 2025 0).1 0 (some "ORD-2025-0001") rfl).1

/-- Claim C7 (confirmed): counter initialisation (`$setOnInsert` with
upsert) creates the counter at 0 when no document exists, keeps every
existing value unchanged, and is idempotent, also at the level of
`connectDB`. -/
theorem claim_C7_idempotent_initialisation :
    initCounter none = some 0 ∧
    (∀ v : Int, initCounter (some v) = some v) ∧
    (∀ c : Option Int, initCounter (initCounter c) = initCounter c) ∧
    (∀ db : DB, (connectDB db).counter = initCounter db.counter ∧
       connectDB (connectDB db) = connectDB db ∧
       (connectDB db).lessons = db.lessons ∧
       (connectDB db).orders = db.orders) := by
  refine ⟨rfl, fun v => rfl, fun c => by cases c <;> rfl,
    fun db => ⟨rfl, ?_, rfl, rfl⟩⟩
  show ({ db with counter := initCounter (initCounter db.counter) } : DB) =
    { db with counter := initCounter db.counter }
  cases h : db.counter <;> rfl

/-- Claim C10 (confirmed): line items are reserved sequentially against
the intermediate states, so duplicate lesson ids accumulate: a successful
order implies the lesson's initial space covered the summed quantities for
that id (and the final space is the initial minus that sum), and a
mid-order failure keeps the successful prefix's decrements applied, in
both variants. -/
theorem claim_C10_sequential_duplicate_items :
    (∀ (db : DB) (o : RawOrder) (t : Nat) (db' : DB) (i : Nat)
       (num : Option String) (items : List RawLineItem),
       placeOrder_v2 db o t = (db', .success i num) →
       (db.lessons.map Lesson.id).Nodup →
       (∀ l ∈ db.lessons, 0 ≤ l.space) →
       o.lessons = some items →
       ∀ lid l0, findLesson db.lessons lid = some l0 →
         findLesson db'.lessons lid =
           some { l0 with space := l0.space - sumQty items lid } ∧
         sumQty items lid ≤ l0.space) ∧
    (∀ (db : DB) (o : RawOrder) (y t : Nat) (db' : DB) (i : Nat)
       (num : Option String) (items : List RawLineItem),
       placeOrder_v1 db o y t = (db', .success i num) →
       (db.lessons.map Lesson.id).Nodup →
       (∀ l ∈ db.lessons, 0 ≤ l.space) →
       o.lessons = some items →
       ∀ lid l0, findLesson db.lessons lid = some l0 →
         findLesson db'.lessons lid =
           some { l0 with space := l0.space - sumQty items lid } ∧
         sumQty items lid ≤ l0.space) ∧
    (∀ (ls : List Lesson) (items : List RawLineItem) (ls' : List Lesson)
       (lid : String),
       reserveLoop ls items = .noSpace ls' lid →
       ∃ pre it rest, items = pre ++ it :: rest ∧ it.id = lid ∧
         reserveLoop ls pre = .ok ls' ∧
         (tryReserve ls' it.id it.qty).2 = false) := by
  refine ⟨?_, ?_, ?_⟩
  · intro db o t db' i num items h hnd hpos hitems lid l0 hf
    obtain ⟨items', hi', _, hok, _⟩ := placeOrder_v2_success_spec db o t db' i num h
    rw [hitems, Option.some.injEq] at hi'
    subst hi'
    exact ⟨reserveLoop_ok_find items _ _ hnd hok lid l0 hf,
           reserveLoop_ok_sum_le items _ _ hnd hpos hok lid l0 hf⟩
  · intro db o y t db' i num items h hnd hpos hitems lid l0 hf
    obtain ⟨items', hi', hok, _⟩ := placeOrder_v1_success_spec db o y t db' i num h
    rw [hitems, Option.some.injEq] at hi'
    subst hi'
    exact ⟨reserveLoop_ok_find items _ _ hnd hok lid l0 hf,
           reserveLoop_ok_sum_le items _ _ hnd hpos hok lid l0 hf⟩
  · intro ls items ls' lid h
    obtain ⟨pre, it, rest, he, hid, _, hok, hfail⟩ :=
      reserveLoop_noSpace_split items ls ls' lid h
    exact ⟨pre, it, rest, he, hid, hok, hfail⟩

/-- Witness for C10: an order asking 2 + 2 places of the same 5-place
lesson succeeds and leaves that lesson with exactly 1 place. -/
theorem claim_C10_witness :
    findLesson (placeOrder_v2 db0 oDup 0).1.lessons lidA =
      some { lessonA with space := lessonA.space - sumQty [⟨lidA, 2⟩, ⟨lidA, 2⟩] lidA } ∧
    sumQty [⟨lidA, 2⟩, ⟨lidA, 2⟩] lidA ≤ lessonA.space :=
  claim_C10_sequential_duplicate_items.1 db0 oDup 0
    (placeOrder_v2 db0 oDup 0).1 0 none [⟨lidA, 2⟩, ⟨lidA, 2⟩] rfl
    (by decide) (by decide) rfl lidA lessonA (by decide)

/-- Claim C1 counterexample: an order reserving 2 of lesson A (space 5)
and then failing on lesson B (space 1 < 5) ends with lesson A's space at
3, not restored to its pre-call value 5 — no compensating release
happens. -/
theorem claim_C1_counterexample :
    (placeOrder_v1 db0 oTwo 2025 0).2 = .noSpace lidB ∧
    db0.lessons.map Lesson.space = [5, 1] ∧
    (placeOrder_v1 db0 oTwo 2025 0).1.lessons.map Lesson.space = [3, 1] ∧
    ¬ (placeOrder_v1 db0 oTwo 2025 0).1.lessons.map Lesson.space = [5, 1] :=
  ⟨rfl, rfl, rfl, by decide⟩

/-- Claim C1 (amended): when a line item fails capacity reservation, both
variants fail with the capacity error naming the failing lesson, write no
order record and leave the counter untouched — but they do NOT release the
earlier reservations: the lessons collection stays exactly as the
successful prefix of the reserve loop left it (the failing item's filter
matched nothing on that state). -/
theorem claim_C1_amended_no_release :
    (∀ (db : DB) (o : RawOrder) (y t : Nat) (db' : DB) (lid : String),
       placeOrder_v1 db o y t = (db', .noSpace lid) →
       db'.orders = db.orders ∧ db'.counter = db.counter ∧
       ∃ items pre it rest, o.lessons = some items ∧
         items = pre ++ it :: rest ∧ it.id = lid ∧
         reserveLoop db.lessons pre = .ok db'.lessons ∧
         (tryReserve db'.lessons it.id it.qty).2 = false) ∧
    (∀ (db : DB) (o : RawOrder) (t : Nat) (db' : DB) (lid : String),
       placeOrder_v2 db o t = (db', .noSpace lid) →
       db'.orders = db.orders ∧ db'.counter = db.counter ∧
       ∃ items pre it rest, o.lessons = some items ∧
         items = pre ++ it :: rest ∧ it.id = lid ∧
         reserveLoop db.lessons pre = .ok db'.lessons ∧
         (tryReserve db'.lessons it.id it.qty).2 = false) := by
  constructor
  · intro db o y t db' lid h
    obtain ⟨ho, hc, items, hi, hrl⟩ := placeOrder_v1_noSpace_spec db o y t db' lid h
    obtain ⟨pre, it, rest, he, hid, _, hok, hfail⟩ :=
      reserveLoop_noSpace_split items _ _ _ hrl
    exact ⟨ho, hc, items, pre, it, rest, hi, he, hid, hok, hfail⟩
  · intro db o t db' lid h
    obtain ⟨ho, hc, items, hi, hrl⟩ := placeOrder_v2_noSpace_spec db o t db' lid h
    obtain ⟨pre, it, rest, he, hid, _, hok, hfail⟩ :=
      reserveLoop_noSpace_split items _ _ _ hrl
    exact ⟨ho, hc, items, pre, it, rest, hi, he, hid, hok, hfail⟩

/-- Witness for the amended C1 at the two-item sample order: no order
record written, counter untouched. -/
theorem claim_C1_witness :
    (placeOrder_v1 db0 oTwo 2025 0).1.orders = db0.orders ∧
    (placeOrder_v1 db0 oTwo 2025 0).1.counter = db0.counter := by
  have h := claim_C1_amended_no_release.1 db0 oTwo 2025 0
    (placeOrder_v1 db0 oTwo 2025 0).1 lidB rfl
  exact ⟨h.1, h.2.1⟩

/-- Claim C4 counterexample: variant 1 performs no line-item validation,
so an order with quantity 0 is "reserved" (the `$gte: 0` filter matches)
and persisted. -/
theorem claim_C4_counterexample :
    (placeOrder_v1 db0 oZero 2025 0).2 = .success 0 (some "ORD-2025-0001") ∧
    (placeOrder_v1 db0 oZero 2025 0).1.orders.map OrderRec.items =
      [[⟨lidA, 0⟩]] :=
  ⟨rfl, rfl⟩

/-- Claim C4 (amended): in the second variant, a line item with a
malformed id or a non-positive quantity is rejected with the corresponding
validation error before any capacity is decremented (state unchanged), and
every order record the second variant persists contains only well-formed
ids and positive quantities. The first variant performs no line-item
validation and does persist zero-quantity orders. -/
theorem claim_C4_amended_line_item_validation :
    (∀ (db : DB) (o : RawOrder) (t : Nat) (db' : DB) (r : OrderResult),
       placeOrder_v2 db o t = (db', r) →
       (r = .invalidLessonId ∨ r = .invalidQty) → db' = db) ∧
    (∀ (db : DB) (o : RawOrder) (t : Nat) (db' : DB) (i : Nat)
       (num : Option String),
       placeOrder_v2 db o t = (db', .success i num) →
       ∀ rec ∈ db'.orders, rec ∉ db.orders →
         ∀ it ∈ rec.items, isValidObjectId it.id = true ∧ 0 < it.qty) := by
  constructor
  · intro db o t db' r h hr
    refine placeOrder_v2_validation_state db o t db' r h ?_
    rcases hr with hr | hr
    · exact Or.inr (Or.inr (Or.inr (Or.inl hr)))
    · exact Or.inr (Or.inr (Or.inr (Or.inr (Or.inl hr))))
  · intro db o t db' i num h rec hrec hnew it hit
    obtain ⟨items, _, hli, _, _, _, _, hor⟩ :=
      placeOrder_v2_success_spec db o t db' i num h
    rw [hor] at hrec
    rcases List.mem_append.mp hrec with hold | hone
    · exact absurd hold hnew
    · rcases List.mem_singleton.mp hone with he
      subst he
      exact lineItemsCheck_none items hli it hit

/-- Witness for the amended C4: the zero-quantity sample order is rejected
by variant 2 with the quantity error and an unchanged state. -/
theorem claim_C4_witness :
    placeOrder_v2 db0 oZero 0 = (db0, .invalidQty) ∧ db0 = db0 :=
  ⟨rfl,
   claim_C4_amended_line_item_validation.1 db0 oZero 0 db0 .invalidQty
     rfl (Or.inr rfl)⟩

/-- Claim C5 counterexample: a fully successful order through variant 2
responds without any order number and persists a record whose
`orderNumber` field does not exist. -/
theorem claim_C5_counterexample :
    (placeOrder_v2 db0 oGood 0).2 = .success 0 none ∧
    (placeOrder_v2 db0 oGood 0).1.orders.map OrderRec.orderNumber =
      [none] :=
  ⟨rfl, rfl⟩

/-- Claim C5 (amended): in the first variant every successful call
responds with `ORD-{year}-{seq}` where the sequence is the post-increment
counter value zero-padded to at least 4 digits — padding never truncates a
longer sequence, whose digits survive as a suffix — and the same number is
stored on the one appended order record; the second variant's successful
calls respond and persist without any order number. -/
theorem claim_C5_amended_order_number :
    (∀ (db : DB) (o : RawOrder) (y t : Nat) (db' : DB) (i : Nat)
       (num : Option String),
       placeOrder_v1 db o y t = (db', .success i num) →
       num = some (formatOrderNumber y (counterVal db'.counter)) ∧
       db'.orders = db.orders ++
         [{ orderNumber := num, name := o.name, phone := o.phone,
            items := o.lessons.getD [], notes := o.notes.getD "",
            status := some "pending", createdAt := t }]) ∧
    (∀ (s : String) (n : Nat) (c : Char),
       (padStart s n c).length = max n s.length ∧
       (n ≤ s.length → padStart s n c = s) ∧
       ∃ p, padStart s n c = p ++ s) ∧
    (∀ (db : DB) (o : RawOrder) (t : Nat) (db' : DB) (i : Nat)
       (num : Option String),
       placeOrder_v2 db o t = (db', .success i num) →
       num = none ∧
       db'.orders = db.orders ++
         [{ orderNumber := none, name := o.name, phone := o.phone,
            items := o.lessons.getD [], notes := o.notes.getD "",
            status := none, createdAt := t }]) := by
  refine ⟨?_, fun s n c =>
    ⟨padStart_length s n c, padStart_of_le s n c, padStart_suffix s n c⟩, ?_⟩
  · intro db o y t db' i num h
    obtain ⟨items, heqi, _, hc, hnum, _, hor⟩ :=
      placeOrder_v1_success_spec db o y t db' i num h
    have hcv : counterVal db'.counter = (nextSeq db.counter).2 := by
      rw [hc, (nextSeq_counterVal db.counter).1,
        (nextSeq_counterVal db.counter).2]
    constructor
    · rw [hnum, hcv]
    · rw [hor, heqi]
      rfl
  · intro db o t db' i num h
    obtain ⟨items, heqi, _, _, _, hnum, _, hor⟩ :=
      placeOrder_v2_success_spec db o t db' i num h
    exact ⟨hnum, by rw [hor, heqi]; rfl⟩

/-- Witness for the amended C5: the sample success mints `ORD-2025-0001`
and stores it on the persisted record. -/
theorem claim_C5_witness :
    (some "ORD-2025-0001" : Option String) =
      some (formatOrderNumber 2025
        (counterVal (placeOrder_v1 db0 oGood 2025 0).1.counter)) ∧
    (placeOrder_v1 db0 oGood 2025 0).1.orders = db0.orders ++
      [{ orderNumber := some "ORD-2025-0001", name := oGood.name,
         phone := oGood.phone, items := oGood.lessons.getD [],
         notes := oGood.notes.getD "", status := some "pending",
         createdAt := 0 }] :=
  claim_C5_amended_order_number.1 db0 oGood 2025 0
    (placeOrder_v1 db0 oGood 2025 0).1 0 (some "ORD-2025-0001") rfl

set_option maxRecDepth 4000 in
/-- Claim C8 counterexample: variant 1 has no notes validation, so an
order with 251-character notes succeeds and the full notes are
persisted. -/
theorem claim_C8_counterexample :
    longNotes.length = 251 ∧
    (placeOrder_v1 db0 oNotes 2025 0).2 = .success 0 (some "ORD-2025-0001") ∧
    (placeOrder_v1 db0 oNotes 2025 0).1.orders.map
      (fun r => r.notes.length) = [251] :=
  ⟨rfl, rfl, rfl⟩

/-- Claim C8 (amended): in the second variant, notes of at most 250
characters pass the check, notes of 251 or more fail it and — once the
earlier validations pass — the call answers `notesTooLong` with the state
untouched; absent notes default to the empty string on the record either
variant persists. The first variant itself performs no notes-length
validation. -/
theorem claim_C8_amended_notes :
    (∀ s : String, s.length ≤ 250 → notesTooLongCheck (some s) = false) ∧
    (∀ s : String, 251 ≤ s.length → notesTooLongCheck (some s) = true) ∧
    (∀ (db : DB) (o : RawOrder) (t : Nat) (items : List RawLineItem),
       nameOk o.name = true → phoneOk o.phone = true →
       o.lessons = some items → items.isEmpty = false →
       lineItemsCheck items = none → notesTooLongCheck o.notes = true →
       placeOrder_v2 db o t = (db, .notesTooLong)) ∧
    (∀ (db : DB) (o : RawOrder) (y t : Nat) (db' : DB) (i : Nat)
       (num : Option String),
       placeOrder_v1 db o y t = (db', .success i num) → o.notes = none →
       db'.orders = db.orders ++
         [{ orderNumber := num, name := o.name, phone := o.phone,
            items := o.lessons.getD [], notes := "",
            status := some "pending", createdAt := t }]) ∧
    (∀ (db : DB) (o : RawOrder) (t : Nat) (db' : DB) (i : Nat)
       (num : Option String),
       placeOrder_v2 db o t = (db', .success i num) → o.notes = none →
       db'.orders = db.orders ++
         [{ orderNumber := none, name := o.name, phone := o.phone,
            items := o.lessons.getD [], notes := "",
            status := none, createdAt := t }]) := by
  refine ⟨notesTooLongCheck_le, notesTooLongCheck_gt,
    fun db o t items hn hp hitems hne hli hnotes =>
      placeOrder_v2_notesTooLong db o t items hn hp hitems hne hli hnotes,
    ?_, ?_⟩
  · intro db o y t db' i num h hnotes
    obtain ⟨items, heqi, _, _, _, _, hor⟩ :=
      placeOrder_v1_success_spec db o y t db' i num h
    rw [hor, heqi, hnotes]
    rfl
  · intro db o t db' i num h hnotes
    obtain ⟨items, heqi, _, _, _, _, _, hor⟩ :=
      placeOrder_v2_success_spec db o t db' i num h
    rw [hor, heqi, hnotes]
    rfl

set_option maxRecDepth 4000 in
/-- Witness for the amended C8: the sample order with 251-character notes
is answered `notesTooLong` by variant 2 with the state untouched. -/
theorem claim_C8_witness :
    placeOrder_v2 db0 oNotes 0 = (db0, .notesTooLong) :=
  claim_C8_amended_notes.2.2.1 db0 oNotes 0 [⟨lidA, 1⟩]
    rfl rfl rfl rfl rfl rfl

/-- Claim C9 counterexample: after creating a 5-place lesson and
successfully reserving 2 places, the stored `totalSpace` is still 5 but
`GET /lessons` reports `totalSpace = 3`: `normalizeLessons` recomputes it
from the current space on every read, so the reported value does change. -/
theorem claim_C9_counterexample :
    (getLessons dbC9).map Lesson.totalSpace = [5] ∧
    (placeOrder_v1 dbC9 oGood 2025 0).2 = .success 0 (some "ORD-2025-0001") ∧
    (placeOrder_v1 dbC9 oGood 2025 0).1.lessons.map Lesson.totalSpace = [5] ∧
    (placeOrder_v1 dbC9 oGood 2025 0).1.lessons.map Lesson.space = [3] ∧
    (getLessons (placeOrder_v1 dbC9 oGood 2025 0).1).map Lesson.totalSpace =
      [3] ∧
    ¬ (getLessons (placeOrder_v1 dbC9 oGood 2025 0).1).map Lesson.totalSpace =
      [5] :=
  ⟨rfl, rfl, rfl, rfl, rfl, by decide⟩

/-- Claim C9 (amended): the stored `totalSpace` is a creation-time
snapshot (`POST /lessons` sets it to the submitted `space`) and no order
placement changes it — but the lesson-reporting endpoints overwrite
`totalSpace` with the current `space` in their response, so the reported
`totalSpace` after a reservation equals the decreased space, not the
snapshot. -/
theorem claim_C9_amended_totalSpace :
    (∀ (db : DB) (inp : LessonInput) (newId : String) (db' : DB),
       postLesson db inp newId = some db' →
       db'.lessons = db.lessons ++
         [{ id := newId, topic := inp.topic, location := inp.location,
            price := inp.price, space := inp.space, icon := inp.icon,
            totalSpace := inp.space }]) ∧
    (∀ (db : DB) (o : RawOrder) (y t : Nat),
       (placeOrder_v1 db o y t).1.lessons.map Lesson.totalSpace =
         db.lessons.map Lesson.totalSpace) ∧
    (∀ (db : DB) (o : RawOrder) (t : Nat),
       (placeOrder_v2 db o t).1.lessons.map Lesson.totalSpace =
         db.lessons.map Lesson.totalSpace) ∧
    (∀ db : DB,
       (getLessons db).map Lesson.totalSpace =
         db.lessons.map Lesson.space) := by
  refine ⟨fun db inp newId db' h => (postLesson_some db inp newId db' h).1,
    ?_, ?_, getLessons_totalSpace⟩
  · intro db o y t
    rcases placeOrder_v1_lessons db o y t with hl | ⟨items, _, hl⟩
    · rw [hl]
    · rw [hl, reserveLoop_map_totalSpace]
  · intro db o t
    rcases placeOrder_v2_lessons db o t with hl | ⟨items, _, hl⟩
    · rw [hl]
    · rw [hl, reserveLoop_map_totalSpace]

/-- Witness for the amended C9: creating the sample lesson stores
`totalSpace = 5` alongside `space = 5`. -/
theorem claim_C9_witness :
    dbC9.lessons =
      [{ id := lidA, topic := "math", location := "hendon", price := 10,
         space := 5, icon := "m.png", totalSpace := 5 }] :=
  claim_C9_amended_totalSpace.1
    { lessons := [], orders := [], counter := some 0 }
    { topic := "math", location := "hendon", price := 10, space := 5,
      icon := "m.png" }
    lidA dbC9 rfl
